import Mathlib

/-!
The node `multi_prefixed_tf_broadcaster_node`.

A shallow embedding of `tiny_rviz_plugins/src/multi_prefixed_tf_broadcaster_node.cpp`:
the constructor of `MultiPrefixedTFBroadcaster` (setup of the per-instance registry) and its
`callback` (the update dispatcher), followed by the properties proved about them.

Conventions of the embedding.

* Values of the C++ type `double` are only copied by this file, never computed with, so the
  type of positions is a parameter `R`.
* `KDL::Tree` is only produced by `kdl_parser::treeFromUrdfModel` and handed on, so it is a
  parameter `T`; `default : T` is the default-constructed tree that `resize` creates.
* `std::vector` is a `List`; `operator[]` is total and reports an out-of-range index.
* The loop counters are `int`s compared with an `unsigned int`; they are natural numbers here,
  which is exact while the instance count is below `2 ^ 31`: from there on the `int` counter
  of the source overflows. Memory is not modelled: `resize` succeeds.
* `std::map<std::string, V>` is the list of its entries; it is observed through `StdMap.find`.
* The parameter server, `urdf::Model::initParam` and `kdl_parser::treeFromUrdfModel` are
  inputs (`Externals`); `ROS_INFO/ROS_WARN/ROS_ERROR` append to a log; calls on a
  `FixedStatePublisher` and on the static broadcaster are recorded as events.
-/

set_option autoImplicit false

namespace TinyRvizPlugins

/-! ## Library types -/

/-- The entries of a `std::map<std::string, V>`. -/
abbrev StdMap (V : Type) := List (String × V)

/-- Lookup of a key, `std::map::find`. -/
def StdMap.find {V : Type} : StdMap V → String → Option V
  | [], _ => none
  | (k1, v) :: rest, k => if k1 = k then some v else StdMap.find rest k

/-- The call `m.insert(make_pair(k, v))`: a key that is already present keeps its value. -/
def StdMap.insert {V : Type} (m : StdMap V) (k : String) (v : V) : StdMap V :=
  match StdMap.find m k with
  | some _ => m
  | none => (k, v) :: m

/-- The call `std::to_string(i)` for a non-negative `int`: its decimal representation. -/
def to_string (i : Nat) : String := Nat.repr i

/-- The conversion of an `int` to `unsigned int`. -/
def toUnsigned (v : Int) : Nat := (v % 2 ^ 32).toNat

/-- What `%d` prints for an `unsigned int` argument. -/
def format_d (n : Nat) : String :=
  if n < 2 ^ 31 then Nat.repr n else "-" ++ Nat.repr (2 ^ 32 - n)

/-- The type `ros::Time`. -/
structure Time where
  sec : Nat
  nsec : Nat
deriving DecidableEq, Repr

/-- The type `urdf::JointMimic`. -/
structure JointMimic (R : Type) where
  offset : R
  multiplier : R
  joint_name : String
deriving DecidableEq, Repr

/-- The type `urdf::Joint`, with the one member the constructor reads; `mimic` is a shared
pointer, `none` when null. -/
structure Joint (R : Type) where
  mimic : Option (JointMimic R)
deriving DecidableEq, Repr

/-- The type `urdf::Model`, with the one member the constructor reads. -/
structure Model (R : Type) where
  joints_ : StdMap (Joint R)
deriving DecidableEq, Repr

/-- The type `MimicMap`: `std::map<std::string, urdf::JointMimicSharedPtr>`. -/
abbrev MimicMap (R : Type) := StdMap (JointMimic R)

/-- The type `sensor_msgs::JointState`, with the members the dispatcher reads. -/
structure JointState (R : Type) where
  name : List String
  position : List R
deriving DecidableEq, Repr

/-- The type `geometry_msgs::TransformStamped`. -/
structure TransformStamped (R : Type) where
  stamp : Time
  frame_id : String
  child_frame_id : String
  translation : R × R × R
  rotation : R × R × R × R
deriving DecidableEq, Repr

/-- Modelled from the spec: the message `tiny_rviz_plugins/MultiRobotStateDisplay`, whose
declaration is not among the sources: per-instance joint-state blocks, a shared timestamp
(`header.stamp`) and the root-anchor transforms, as the dispatcher reads them. -/
structure MultiRobotStateDisplay (R : Type) where
  stamp : Time
  joint_states : List (JointState R)
  transforms_to_root : List (TransformStamped R)
deriving DecidableEq, Repr

/-- Modelled from the spec: the forward-kinematics publisher `FixedStatePublisher` of
`fixed_state_broadcaster.h`, which is not among the sources: a handle bound to the tree and the
model it was constructed from. Its two operations are recorded as events. -/
structure FixedStatePublisher (R T : Type) where
  tree : T
  model : Model R
deriving DecidableEq, Repr

/-- The inputs of the constructor that live outside this file. -/
structure Externals (R T : Type) where
  /-- The call `nh_.getParam(key, size)` for an `int`: the value when the call returns true. -/
  getParam : String → Option Int
  /-- The call `urdf::Model::initParam(key)`: the loaded model when the call returns true. -/
  initParam : String → Option (Model R)
  /-- The call `kdl_parser::treeFromUrdfModel(model, tree)`: the tree when it returns true. -/
  treeFromUrdfModel : Model R → Option T

/-- A line of the ROS log. -/
inductive LogMsg where
  | info (text : String)
  | warn (text : String)
  | error (text : String)
deriving DecidableEq, Repr

/-- The members of `class MultiPrefixedTFBroadcaster`, and the log written so far. -/
structure MultiPrefixedTFBroadcaster (R T : Type) where
  data_size_ : Nat
  models_ : List (Model R)
  trees_ : List T
  mimicmaps_ : List (MimicMap R)
  pub_ptrs_ : List (Option (FixedStatePublisher R T))
  log : List LogMsg
deriving DecidableEq, Repr

/-- How a run stops other than by returning. -/
inductive Halt (R T : Type) where
  /-- The call `abort()` in iteration `i` of the constructor loop, with the object then. -/
  | abort (i : Nat) (self : MultiPrefixedTFBroadcaster R T)
  /-- An `operator[]` with an index outside the vector. -/
  | outOfRange
  /-- An `operator->` on a null shared pointer. -/
  | nullDeref
deriving DecidableEq, Repr

/-- A call the dispatcher makes on a collaborator. -/
inductive Event (R : Type) where
  /-- The call `pub_ptrs_[idx]->publishTransforms(joint_positions, stamp, tf_prefix)`. -/
  | publishTransforms (idx : Nat) (joint_positions : StdMap R) (stamp : Time)
      ( tf_prefix : String)
  /-- The call `pub_ptrs_[idx]->publishFixedTransforms(tf_prefix, use_tf_static)`. -/
  | publishFixedTransforms (idx : Nat) ( tf_prefix : String) (use_tf_static : Bool)
  /-- The call `st_tf2_broadcaster_.sendTransform(transforms)`. -/
  | sendTransform (transforms : List (TransformStamped R))
deriving DecidableEq, Repr

section Embedding

variable {R T : Type}

/-! ## The constructor (lines 46-93) -/

/-- Lines 81-89: the loop over `models_[i].joints_` that fills `mimicmaps_[i]`, started from
the map `acc`. -/
def collectMimic : StdMap (Joint R) → MimicMap R → MimicMap R
  | [], acc => acc
  | (name, joint) :: rest, acc =>
    match joint.mimic with
    | some mimic => collectMimic rest (StdMap.insert acc name mimic)
    | none => collectMimic rest acc

/-- Line 65: the per-instance parameter key `"mptb_" + to_string(i) + "/robot_description"`. -/
def perInstanceKey (i : Nat) : String := "mptb_" ++ to_string i ++ "/robot_description"

/-- Line 67: the text of the warning for index `i`. -/
def warnText (i : Nat) : String :=
  "Could not load [" ++ (to_string i ++ "/robot_description") ++
    "], then use parameter [robot_descrition]"

/-- Lines 65-73: `models_[i].initParam` on the per-instance key, then on the shared key. The
result is the object after these lines, or the abort of line 71. -/
def loadModel (ext : Externals R T) (i : Nat) (self : MultiPrefixedTFBroadcaster R T) :
    Except (Halt R T) (MultiPrefixedTFBroadcaster R T) :=
  match self.models_[i]? with
  | none => .error .outOfRange
  | some _ =>
    match ext.initParam (perInstanceKey i) with
    | some m => .ok { self with models_ := self.models_.set i m }
    | none =>
      let warned := { self with log := self.log ++ [LogMsg.warn (warnText i)] }
      match ext.initParam "robot_description" with
      | some m => .ok { warned with models_ := warned.models_.set i m }
      | none =>
        .error (.abort i { warned with log :=
          warned.log ++ [LogMsg.error "Failed to read parameter"] })

/-- Lines 75-79: `kdl_parser::treeFromUrdfModel(models_[i], trees_[i])`, or the abort of
line 78. -/
def buildTree (ext : Externals R T) (i : Nat) (self : MultiPrefixedTFBroadcaster R T) :
    Except (Halt R T) (MultiPrefixedTFBroadcaster R T) :=
  match self.models_[i]?, self.trees_[i]? with
  | some m, some _ =>
    match ext.treeFromUrdfModel m with
    | some t => .ok { self with trees_ := self.trees_.set i t }
    | none =>
      .error (.abort i { self with log := self.log ++
        [LogMsg.error "Failed to extract kdl tree from xml robot description"] })
  | _, _ => .error .outOfRange

/-- Lines 81-91: fill `mimicmaps_[i]` and create `pub_ptrs_[i]`. -/
def fillInstance (i : Nat) (self : MultiPrefixedTFBroadcaster R T) :
    Except (Halt R T) (MultiPrefixedTFBroadcaster R T) :=
  match self.models_[i]?, self.mimicmaps_[i]?, self.trees_[i]?, self.pub_ptrs_[i]? with
  | some m, some mm, some t, some _ =>
    .ok { self with
      mimicmaps_ := self.mimicmaps_.set i (collectMimic m.joints_ mm)
      pub_ptrs_ := self.pub_ptrs_.set i (some { tree := t, model := m }) }
  | _, _, _, _ => .error .outOfRange

/-- Lines 64-92: the body of the constructor loop for index `i`. -/
def ctorBody (ext : Externals R T) (i : Nat) (self : MultiPrefixedTFBroadcaster R T) :
    Except (Halt R T) (MultiPrefixedTFBroadcaster R T) :=
  match loadModel ext i self with
  | .error h => .error h
  | .ok s1 =>
    match buildTree ext i s1 with
    | .error h => .error h
    | .ok s2 => fillInstance i s2

/-- Line 63: `for (int i = ...; i < data_size_; i++)`, with `k` iterations left to run from
index `i`. -/
def ctorLoop (ext : Externals R T) :
    Nat → Nat → MultiPrefixedTFBroadcaster R T →
      Except (Halt R T) (MultiPrefixedTFBroadcaster R T)
  | 0, _, self => .ok self
  | k + 1, i, self =>
    match ctorBody ext i self with
    | .error h => .error h
    | .ok s => ctorLoop ext k (i + 1) s

/-- Lines 48-61: the instance count and the four `resize` calls. -/
def ctorInit [Inhabited T] (ext : Externals R T) (data_size : Int) :
    MultiPrefixedTFBroadcaster R T :=
  let data_size_ :=
    match ext.getParam "mptb_datasize" with
    | some size => toUnsigned size
    | none => toUnsigned data_size
  { data_size_ := data_size_
    models_ := List.replicate data_size_ { joints_ := [] }
    trees_ := List.replicate data_size_ default
    mimicmaps_ := List.replicate data_size_ []
    pub_ptrs_ := List.replicate data_size_ none
    log := [LogMsg.info
      ("size of array for MultiRobotStateDisplay is set to " ++ format_d data_size_)] }

/-- The constructor `MultiPrefixedTFBroadcaster::MultiPrefixedTFBroadcaster(int data_size)`. -/
def MultiPrefixedTFBroadcaster.ctor [Inhabited T] (ext : Externals R T) (data_size : Int) :
    Except (Halt R T) (MultiPrefixedTFBroadcaster R T) :=
  let self := ctorInit ext data_size
  ctorLoop ext self.data_size_ 0 self

/-- The default argument of the constructor, `int data_size = 7`, used by `main`. -/
def defaultDataSize : Int := 7

/-! ## The dispatcher (lines 95-118) -/

/-- Lines 104-107: the loop over `js_msg.name`, with `k` iterations left to run from index
`i`, inserting into `joint_positions`. -/
def fillJointPositions (js_msg : JointState R) :
    Nat → Nat → StdMap R → Except (Halt R T) (StdMap R)
  | 0, _, joint_positions => .ok joint_positions
  | k + 1, i, joint_positions =>
    match js_msg.name[i]?, js_msg.position[i]? with
    | some n, some p => fillJointPositions js_msg k (i + 1) (StdMap.insert joint_positions n p)
    | _, _ => .error .outOfRange

/-- Lines 102-107: the mapping built from one joint-state block. -/
def jointPositions (js_msg : JointState R) : Except (Halt R T) (StdMap R) :=
  fillJointPositions js_msg js_msg.name.length 0 []

/-- Line 110: `"mptb_" + to_string(idx)`. -/
def tfPrefixOf (idx : Nat) : String := "mptb_" ++ to_string idx

/-- Lines 101-114: the body of the dispatcher loop for index `idx`; the result is the calls
made so far followed by the two calls of this iteration. -/
def callbackBody (self : MultiPrefixedTFBroadcaster R T) (msg : MultiRobotStateDisplay R)
    (idx : Nat) (calls : List (Event R)) : Except (Halt R T) (List (Event R)) :=
  match msg.joint_states[idx]? with
  | none => .error .outOfRange
  | some js_msg =>
    match jointPositions js_msg with
    | .error h => .error h
    | .ok joint_positions =>
      let tf := tfPrefixOf idx
      match self.pub_ptrs_[idx]? with
      | none => .error .outOfRange
      | some none => .error .nullDeref
      | some (some _) =>
        .ok (calls ++ [Event.publishTransforms idx joint_positions msg.stamp tf,
          Event.publishFixedTransforms idx tf true])

/-- Line 100: `for (int idx = ...; idx < data_size_; ++idx)`, with `k` iterations left to run
from index `idx`. -/
def callbackLoop (self : MultiPrefixedTFBroadcaster R T) (msg : MultiRobotStateDisplay R) :
    Nat → Nat → List (Event R) → Except (Halt R T) (List (Event R))
  | 0, _, calls => .ok calls
  | k + 1, idx, calls =>
    match callbackBody self msg idx calls with
    | .error h => .error h
    | .ok calls1 => callbackLoop self msg k (idx + 1) calls1

/-- The method `MultiPrefixedTFBroadcaster::callback(msg)`: the calls it makes, in order. -/
def MultiPrefixedTFBroadcaster.callback (self : MultiPrefixedTFBroadcaster R T)
    (msg : MultiRobotStateDisplay R) : Except (Halt R T) (List (Event R)) :=
  match callbackLoop self msg self.data_size_ 0 [] with
  | .error h => .error h
  | .ok calls => .ok (calls ++ [Event.sendTransform msg.transforms_to_root])

/-! ## Vocabulary of the properties -/

/-- The mimic rule declared for joint `j` in a joint map, if any. -/
def declaredMimic (joints : StdMap (Joint R)) (j : String) : Option (JointMimic R) :=
  match StdMap.find joints j with
  | some joint => joint.mimic
  | none => none

/-- The model lines 65-73 load for index `i`: from the per-instance key when that key loads,
from the shared key otherwise. -/
def loadedModel (ext : Externals R T) (i : Nat) : Option (Model R) :=
  match ext.initParam (perInstanceKey i) with
  | some m => some m
  | none => ext.initParam "robot_description"

/-- The warnings lines 65-73 log for index `i`. -/
def loadWarnings (ext : Externals R T) (i : Nat) : List LogMsg :=
  match ext.initParam (perInstanceKey i) with
  | some _ => []
  | none => [LogMsg.warn (warnText i)]

/-- All four vectors have `n` elements. -/
def Sized (n : Nat) (s : MultiPrefixedTFBroadcaster R T) : Prop :=
  s.data_size_ = n ∧ s.models_.length = n ∧ s.trees_.length = n ∧
    s.mimicmaps_.length = n ∧ s.pub_ptrs_.length = n

/-- Instance `j` has been set up from the model lines 65-73 load for it. -/
def SlotDone (ext : Externals R T) (s : MultiPrefixedTFBroadcaster R T) (j : Nat) : Prop :=
  ∃ m t, loadedModel ext j = some m ∧ ext.treeFromUrdfModel m = some t ∧
    s.models_[j]? = some m ∧ s.trees_[j]? = some t ∧
    s.mimicmaps_[j]? = some (collectMimic m.joints_ []) ∧
    s.pub_ptrs_[j]? = some (some { tree := t, model := m })

/-- Instance `j` is as `resize` left it: an empty mimic map, a null publisher handle, a
default-constructed model and a default-constructed tree. -/
def SlotFresh [Inhabited T] (s : MultiPrefixedTFBroadcaster R T) (j : Nat) : Prop :=
  s.mimicmaps_[j]? = some [] ∧ s.pub_ptrs_[j]? = some none ∧
    s.models_[j]? = some { joints_ := [] } ∧ s.trees_[j]? = some default

/-- The invariant of the constructor loop before iteration `i`. -/
def CtorInv [Inhabited T] (ext : Externals R T) (n i : Nat)
    (s : MultiPrefixedTFBroadcaster R T) : Prop :=
  Sized n s ∧ (∀ j, j < i → SlotDone ext s j) ∧ (∀ j, i ≤ j → j < n → SlotFresh s j)

/-- Instance `i` cannot be set up: neither key loads, or no tree can be built from the loaded
model. -/
def instanceFails (ext : Externals R T) (i : Nat) : Prop :=
  (ext.initParam (perInstanceKey i) = none ∧ ext.initParam "robot_description" = none) ∨
    ∃ m, loadedModel ext i = some m ∧ ext.treeFromUrdfModel m = none

/-- The position paired with the first occurrence of `q` among the names. -/
def firstPosition : List String → List R → String → Option R
  | n :: ns, p :: ps, q => if n = q then some p else firstPosition ns ps q
  | _, _, _ => none

/-- The mapping the dispatcher builds from a block; empty when it cannot be built. -/
def blockMap (js_msg : JointState R) : StdMap R :=
  match jointPositions (T := Unit) js_msg with
  | .ok jp => jp
  | .error _ => []

/-- The mapping built from block `idx` of a batch. -/
def blockMapAt (msg : MultiRobotStateDisplay R) (idx : Nat) : StdMap R :=
  match msg.joint_states[idx]? with
  | some js_msg => blockMap js_msg
  | none => []

/-- The two publisher calls of iteration `idx` of the dispatcher loop. -/
def instanceCalls (msg : MultiRobotStateDisplay R) (idx : Nat) : List (Event R) :=
  [Event.publishTransforms idx (blockMapAt msg idx) msg.stamp (tfPrefixOf idx),
    Event.publishFixedTransforms idx (tfPrefixOf idx) true]

/-- Block `idx` of the batch is missing, or has fewer positions than names. -/
def BadBlock (msg : MultiRobotStateDisplay R) (idx : Nat) : Prop :=
  msg.joint_states.length ≤ idx ∨
    ∃ js_msg, msg.joint_states[idx]? = some js_msg ∧
      js_msg.position.length < js_msg.name.length

/-- Every publisher handle below `n` is set. -/
def PubsSet (n : Nat) (self : MultiPrefixedTFBroadcaster R T) : Prop :=
  ∀ idx, idx < n → ∃ p, self.pub_ptrs_[idx]? = some (some p)

/-- One step of reading a decimal numeral from its most significant digit. -/
def readDigit (acc : Nat) (c : Char) : Nat := 10 * acc + (c.toNat - 48)

/-- The instance count as the specification words it: the value of the instance-count
parameter when it is set, the default argument 7 of the constructor otherwise. -/
def configuredCount (ext : Externals R T) : Nat :=
  match ext.getParam "mptb_datasize" with
  | some size => size.toNat
  | none => 7

/-- A well-formed batch for `n` instances: `n` joint-state blocks, each with a position for
every name. -/
def WellFormed (n : Nat) (msg : MultiRobotStateDisplay R) : Prop :=
  msg.joint_states.length = n ∧
    ∀ js_msg, js_msg ∈ msg.joint_states → js_msg.name.length ≤ js_msg.position.length

/-- The collaborator and operation a call addresses. -/
inductive Callee where
  /-- The operation `publishTransforms` of the publisher of instance `idx`. -/
  | dynamic (idx : Nat)
  /-- The operation `publishFixedTransforms` of the publisher of instance `idx`. -/
  | fixed (idx : Nat)
  /-- The operation `sendTransform` of the shared static broadcaster. -/
  | staticBroadcaster
deriving DecidableEq, Repr

/-- The collaborator and operation of a recorded call. -/
def Event.callee : Event R → Callee
  | .publishTransforms idx _ _ _ => .dynamic idx
  | .publishFixedTransforms idx _ _ => .fixed idx
  | .sendTransform _ => .staticBroadcaster

/-- A text names index `k` when the decimal representation of `k` occurs in it. -/
def namesIndex (text : String) (k : Nat) : Prop := (to_string k).data <:+: text.data

end Embedding

/-! ## Scenarios -/

/-- A model with a measured joint `hinge` and a joint `follower = mimic(hinge, 2.0, 0.1)`. -/
def hingeModel : Model Rat :=
  { joints_ := [("follower",
      { mimic := some { offset := 0.1, multiplier := 2.0, joint_name := "hinge" } }),
      ("hinge", { mimic := none })] }

/-- A model without joints. -/
def plainModel : Model Rat := { joints_ := [] }

/-- Two instances: instance 0 loads `hingeModel` from its own key, instance 1 falls back to the
shared key. -/
def mimicExt : Externals Rat Unit where
  getParam := fun key => if key = "mptb_datasize" then some 2 else none
  initParam := fun key =>
    if key = "mptb_0/robot_description" then some hingeModel
    else if key = "robot_description" then some plainModel else none
  treeFromUrdfModel := fun _ => some ()

/-- The object the constructor builds from `mimicExt`. -/
def mimicSelf : MultiPrefixedTFBroadcaster Rat Unit :=
  { data_size_ := 2
    models_ := [hingeModel, plainModel]
    trees_ := [(), ()]
    mimicmaps_ := [[("follower", { offset := 0.1, multiplier := 2.0, joint_name := "hinge" })], []]
    pub_ptrs_ := [some { tree := (), model := hingeModel },
      some { tree := (), model := plainModel }]
    log := [LogMsg.info "size of array for MultiRobotStateDisplay is set to 2",
      LogMsg.warn "Could not load [1/robot_description], then use parameter [robot_descrition]"] }

/-- A root-anchor transform of the batch. -/
def rootAnchor : TransformStamped Rat :=
  { stamp := { sec := 1, nsec := 2 }
    frame_id := "world"
    child_frame_id := "mptb_0/base_link"
    translation := (1, 0, 0)
    rotation := (0, 0, 0, 1) }

/-- The batch `block0 = {hinge: 0.5}`, `block1 = {}`. -/
def mimicMsg : MultiRobotStateDisplay Rat :=
  { stamp := { sec := 1, nsec := 2 }
    joint_states := [{ name := ["hinge"], position := [0.5] }, { name := [], position := [] }]
    transforms_to_root := [rootAnchor] }

/-- A batch with a single block, one short of what two instances need. -/
def shortMsg : MultiRobotStateDisplay Rat :=
  { stamp := { sec := 1, nsec := 2 }
    joint_states := [{ name := ["hinge"], position := [0.5] }]
    transforms_to_root := [] }

/-- A block in which the name `a` occurs twice. -/
def repeatedBlock : JointState Rat := { name := ["a", "b", "a"], position := [1, 2, 3] }

/-- Seven instances, instance count not configured; nothing loads for index 3. -/
def failExt : Externals Rat Unit where
  getParam := fun _ => none
  initParam := fun key =>
    if key = "mptb_3/robot_description" then none
    else if key = "robot_description" then none else some plainModel
  treeFromUrdfModel := fun _ => some ()

/-- The object at the abort of the constructor run on `failExt`. -/
def failSelf : MultiPrefixedTFBroadcaster Rat Unit :=
  { data_size_ := 7
    models_ := List.replicate 7 plainModel
    trees_ := List.replicate 7 ()
    mimicmaps_ := List.replicate 7 []
    pub_ptrs_ := List.replicate 3 (some { tree := (), model := plainModel }) ++
      List.replicate 4 none
    log := [LogMsg.info "size of array for MultiRobotStateDisplay is set to 7",
      LogMsg.warn "Could not load [3/robot_description], then use parameter [robot_descrition]",
      LogMsg.error "Failed to read parameter"] }

section Proofs

variable {R T : Type}

/-! ## Lemmas -/

/-! ### Maps -/

theorem StdMap.find_insert {V : Type} (m : StdMap V) (k : String) (v : V) (q : String) :
    StdMap.find (StdMap.insert m k v) q =
      match StdMap.find m q with
      | some x => some x
      | none => if k = q then some v else none := by
  unfold StdMap.insert
  cases hk : StdMap.find m k with
  | some y =>
    simp only
    cases hq : StdMap.find m q with
    | some x => rfl
    | none =>
      have : k ≠ q := by
        intro h; subst h; rw [hk] at hq; cases hq
      simp [this]
  | none =>
    simp only [StdMap.find]
    by_cases h : k = q
    · subst h; simp [hk]
    · simp only [h, if_false]
      cases hq : StdMap.find m q <;> rfl

theorem StdMap.find_eq_none_of_not_mem {V : Type} (m : StdMap V) (k : String)
    (h : k ∉ m.map Prod.fst) : StdMap.find m k = none := by
  induction m with
  | nil => rfl
  | cons e rest ih =>
    obtain ⟨k1, v⟩ := e
    simp only [List.map_cons, List.mem_cons, not_or] at h
    simp only [StdMap.find]
    rw [if_neg (fun h1 => h.1 h1.symm)]
    exact ih h.2

theorem find_collectMimic (joints : StdMap (Joint R)) (hnd : (joints.map Prod.fst).Nodup)
    (acc : MimicMap R) (j : String) :
    StdMap.find (collectMimic joints acc) j =
      match StdMap.find acc j with
      | some r => some r
      | none => declaredMimic joints j := by
  induction joints generalizing acc with
  | nil =>
    simp only [collectMimic, declaredMimic, StdMap.find]
    cases StdMap.find acc j <;> rfl
  | cons e rest ih =>
    obtain ⟨name, joint⟩ := e
    simp only [List.map_cons, List.nodup_cons] at hnd
    cases hm : joint.mimic with
    | none =>
      simp only [collectMimic, hm]
      rw [ih hnd.2]
      cases StdMap.find acc j with
      | some r => rfl
      | none =>
        simp only [declaredMimic, StdMap.find]
        by_cases h : name = j
        · subst h
          simp [hm, StdMap.find_eq_none_of_not_mem rest name hnd.1]
        · simp [h]
    | some r =>
      simp only [collectMimic, hm]
      rw [ih hnd.2, StdMap.find_insert]
      cases StdMap.find acc j with
      | some r => rfl
      | none =>
        simp only [declaredMimic, StdMap.find]
        by_cases h : name = j
        · subst h
          simp [hm]
        · simp [h, declaredMimic]

theorem loadModel_eq (ext : Externals R T) (i : Nat) (s : MultiPrefixedTFBroadcaster R T)
    (hi : i < s.models_.length) :
    loadModel ext i s =
      match loadedModel ext i with
      | some m => .ok { s with models_ := s.models_.set i m, log := s.log ++ loadWarnings ext i }
      | none => .error (.abort i { s with log := s.log ++
          [LogMsg.warn (warnText i), LogMsg.error "Failed to read parameter"] }) := by
  unfold loadModel loadedModel loadWarnings
  rw [List.getElem?_eq_getElem hi]
  simp only [perInstanceKey, warnText]
  cases h1 : ext.initParam ("mptb_" ++ to_string i ++ "/robot_description") with
  | some m => simp
  | none =>
    simp only
    cases h2 : ext.initParam "robot_description" with
    | some m => simp
    | none => simp

theorem ctorBody_eq (ext : Externals R T) (n i : Nat) (s : MultiPrefixedTFBroadcaster R T)
    (hs : Sized n s) (hi : i < n) :
    ctorBody ext i s =
      match loadedModel ext i with
      | none => .error (.abort i { s with log := s.log ++
          [LogMsg.warn (warnText i), LogMsg.error "Failed to read parameter"] })
      | some m =>
        match ext.treeFromUrdfModel m with
        | none => .error (.abort i { s with
            models_ := s.models_.set i m
            log := s.log ++ loadWarnings ext i ++
              [LogMsg.error "Failed to extract kdl tree from xml robot description"] })
        | some t => .ok { s with
            models_ := s.models_.set i m
            trees_ := s.trees_.set i t
            mimicmaps_ := s.mimicmaps_.set i (collectMimic m.joints_ (s.mimicmaps_.getD i []))
            pub_ptrs_ := s.pub_ptrs_.set i (some { tree := t, model := m })
            log := s.log ++ loadWarnings ext i } := by
  obtain ⟨_, h1, h2, h3, h4⟩ := hs
  unfold ctorBody
  rw [loadModel_eq ext i s (by omega)]
  cases hl : loadedModel ext i with
  | none => rfl
  | some m =>
    simp only
    unfold buildTree
    simp only [List.getElem?_eq_getElem (show i < s.trees_.length by omega),
      List.getElem?_eq_getElem (show i < (s.models_.set i m).length by simp; omega),
      List.getElem_set_self]
    cases ht : ext.treeFromUrdfModel m with
    | none => rfl
    | some t =>
      simp only
      unfold fillInstance
      simp only [List.getElem?_eq_getElem (show i < (s.trees_.set i t).length by simp; omega),
        List.getElem?_eq_getElem (show i < (s.models_.set i m).length by simp; omega),
        List.getElem?_eq_getElem (show i < s.mimicmaps_.length by omega),
        List.getElem?_eq_getElem (show i < s.pub_ptrs_.length by omega),
        List.getElem_set_self, List.getD_eq_getElem _ _ (show i < s.mimicmaps_.length by omega)]

theorem loadedModel_eq_none (ext : Externals R T) (i : Nat) :
    loadedModel ext i = none ↔
      ext.initParam (perInstanceKey i) = none ∧ ext.initParam "robot_description" = none := by
  unfold loadedModel
  cases h : ext.initParam (perInstanceKey i) <;> simp

theorem SlotDone.not_fails {ext : Externals R T} {s : MultiPrefixedTFBroadcaster R T} {j : Nat}
    (h : SlotDone ext s j) : ¬ instanceFails ext j := by
  obtain ⟨m, t, hm, ht, _⟩ := h
  rintro (hf | ⟨m1, hm1, ht1⟩)
  · rw [(loadedModel_eq_none ext j).2 hf] at hm; cases hm
  · rw [hm] at hm1; cases hm1; rw [ht] at ht1; cases ht1

theorem ctorBody_ok [Inhabited T] (ext : Externals R T) (n i : Nat)
    (s s1 : MultiPrefixedTFBroadcaster R T)
    (hs : CtorInv ext n i s) (hi : i < n) (h : ctorBody ext i s = .ok s1) :
    CtorInv ext n (i + 1) s1 := by
  obtain ⟨hsz, hdone, hfresh⟩ := hs
  rw [ctorBody_eq ext n i s hsz hi] at h
  obtain ⟨h0, h1, h2, h3, h4⟩ := hsz
  cases hl : loadedModel ext i with
  | none => rw [hl] at h; cases h
  | some m =>
    rw [hl] at h
    simp only at h
    cases ht : ext.treeFromUrdfModel m with
    | none => rw [ht] at h; cases h
    | some t =>
      rw [ht] at h
      simp only [Except.ok.injEq] at h
      subst h
      refine ⟨⟨h0, by simp [h1], by simp [h2], by simp [h3], by simp [h4]⟩, ?_, ?_⟩
      · intro j hj
        by_cases hji : j = i
        · subst hji
          refine ⟨m, t, hl, ht, ?_, ?_, ?_, ?_⟩
          · simp [List.getElem?_set, h1, hi]
          · simp [List.getElem?_set, h2, hi]
          · have hf := (hfresh j (le_refl _) hi).1
            have hd : s.mimicmaps_.getD j [] = [] := by
              rw [List.getD_eq_getElem?_getD, hf]; rfl
            rw [List.getElem?_set_self (by omega), hd]
          · simp [List.getElem?_set, h4, hi]
        · obtain ⟨m1, t1, a1, a2, a3, a4, a5, a6⟩ := hdone j (by omega)
          have hne : ¬ i = j := fun e => hji e.symm
          refine ⟨m1, t1, a1, a2, ?_, ?_, ?_, ?_⟩ <;> simp [List.getElem?_set, hne, *]
      · intro j hj1 hj2
        obtain ⟨b1, b2, b3, b4⟩ := hfresh j (by omega) hj2
        have hne : ¬ i = j := by omega
        exact ⟨by rw [List.getElem?_set_ne hne]; exact b1,
          by rw [List.getElem?_set_ne hne]; exact b2,
          by rw [List.getElem?_set_ne hne]; exact b3,
          by rw [List.getElem?_set_ne hne]; exact b4⟩

theorem ctorBody_error_models (ext : Externals R T) (n i : Nat)
    (s s1 : MultiPrefixedTFBroadcaster R T) (hs : Sized n s) (hi : i < n)
    (h : ctorBody ext i s = .error (.abort i s1)) :
    ∀ j, j ≠ i → s1.models_[j]? = s.models_[j]? := by
  intro j hj
  have hne : ¬ i = j := fun e => hj e.symm
  rw [ctorBody_eq ext n i s hs hi] at h
  cases hl : loadedModel ext i with
  | none =>
    rw [hl] at h
    simp only [Except.error.injEq, Halt.abort.injEq, true_and] at h
    subst h
    rfl
  | some m =>
    rw [hl] at h
    simp only at h
    cases ht : ext.treeFromUrdfModel m with
    | some t => rw [ht] at h; cases h
    | none =>
      rw [ht] at h
      simp only [Except.error.injEq, Halt.abort.injEq, true_and] at h
      subst h
      exact List.getElem?_set_ne hne

theorem ctorBody_error (ext : Externals R T) (n i : Nat) (s : MultiPrefixedTFBroadcaster R T)
    (hs : Sized n s) (hi : i < n) (e : Halt R T) (h : ctorBody ext i s = .error e) :
    instanceFails ext i ∧ ∃ s1, e = .abort i s1 ∧ s1.pub_ptrs_ = s.pub_ptrs_ ∧
      s1.mimicmaps_ = s.mimicmaps_ ∧ s1.trees_ = s.trees_ ∧
      ((loadedModel ext i = none ∧ s1.log = s.log ++
          [LogMsg.warn (warnText i), LogMsg.error "Failed to read parameter"]) ∨
        (∃ m, loadedModel ext i = some m ∧ ext.treeFromUrdfModel m = none ∧ s1.log = s.log ++
          loadWarnings ext i ++
            [LogMsg.error "Failed to extract kdl tree from xml robot description"])) := by
  rw [ctorBody_eq ext n i s hs hi] at h
  cases hl : loadedModel ext i with
  | none =>
    rw [hl] at h
    simp only [Except.error.injEq] at h
    subst h
    exact ⟨Or.inl ((loadedModel_eq_none ext i).1 hl), _, rfl, rfl, rfl, rfl, Or.inl ⟨rfl, rfl⟩⟩
  | some m =>
    rw [hl] at h
    simp only at h
    cases ht : ext.treeFromUrdfModel m with
    | some t => rw [ht] at h; cases h
    | none =>
      rw [ht] at h
      simp only [Except.error.injEq] at h
      subst h
      exact ⟨Or.inr ⟨m, hl, ht⟩, _, rfl, rfl, rfl, rfl, Or.inr ⟨m, rfl, ht, rfl⟩⟩

theorem ctorLoop_spec [Inhabited T] (ext : Externals R T) (n : Nat) :
    ∀ (k i : Nat) (s : MultiPrefixedTFBroadcaster R T), CtorInv ext n i s → i + k = n →
      (∀ s1, ctorLoop ext k i s = .ok s1 → CtorInv ext n n s1) ∧
      (∀ e, ctorLoop ext k i s = .error e → ∃ j sj, i ≤ j ∧ j < n ∧ CtorInv ext n j sj ∧
        ctorBody ext j sj = .error e) := by
  intro k
  induction k with
  | zero =>
    intro i s hs hik
    have : i = n := by omega
    subst this
    refine ⟨?_, ?_⟩
    · intro s1 h
      simp only [ctorLoop, Except.ok.injEq] at h
      subst h; exact hs
    · intro e h
      simp only [ctorLoop] at h
      cases h
  | succ k ih =>
    intro i s hs hik
    have hi : i < n := by omega
    simp only [ctorLoop]
    cases hb : ctorBody ext i s with
    | error e =>
      refine ⟨fun s1 h => (by cases h), ?_⟩
      intro e1 h
      simp only [Except.error.injEq] at h
      subst h
      exact ⟨i, s, le_refl _, hi, hs, hb⟩
    | ok s2 =>
      have hinv := ctorBody_ok ext n i s s2 hs hi hb
      obtain ⟨ih1, ih2⟩ := ih (i + 1) s2 hinv (by omega)
      refine ⟨ih1, ?_⟩
      intro e h
      obtain ⟨j, sj, h1, h2, h3, h4⟩ := ih2 e h
      exact ⟨j, sj, by omega, h2, h3, h4⟩

theorem ctorInit_inv [Inhabited T] (ext : Externals R T) (data_size : Int) :
    CtorInv ext (ctorInit ext data_size).data_size_ 0 (ctorInit ext data_size) := by
  refine ⟨⟨rfl, ?_, ?_, ?_, ?_⟩, ?_, ?_⟩
  · simp [ctorInit]
  · simp [ctorInit]
  · simp [ctorInit]
  · simp [ctorInit]
  · intro j hj; omega
  · intro j _ hj
    refine ⟨?_, ?_, ?_, ?_⟩ <;>
    · simp only [ctorInit] at hj ⊢
      rw [List.getElem?_replicate]; simp [hj]

/-- What a run of the constructor establishes, with `n` the instance count it computed. -/
theorem ctor_spec [Inhabited T] (ext : Externals R T) (data_size : Int) :
    (∀ s1, MultiPrefixedTFBroadcaster.ctor ext data_size = .ok s1 →
      CtorInv ext (ctorInit ext data_size).data_size_ (ctorInit ext data_size).data_size_ s1) ∧
    (∀ e, MultiPrefixedTFBroadcaster.ctor ext data_size = .error e →
      ∃ j sj, j < (ctorInit ext data_size).data_size_ ∧
        CtorInv ext (ctorInit ext data_size).data_size_ j sj ∧ ctorBody ext j sj = .error e) := by
  have h := ctorLoop_spec ext (ctorInit ext data_size).data_size_
    (ctorInit ext data_size).data_size_ 0 (ctorInit ext data_size)
    (ctorInit_inv ext data_size) (by omega)
  refine ⟨h.1, ?_⟩
  intro e he
  obtain ⟨j, sj, _, h2, h3, h4⟩ := h.2 e he
  exact ⟨j, sj, h2, h3, h4⟩

/-! ### The joint-position mapping of one block -/

theorem firstPosition_eq_some (ns : List String) (ps : List R) (q : String) (v : R) :
    firstPosition ns ps q = some v ↔
      ∃ k : Nat, ns[k]? = some q ∧ ps[k]? = some v ∧ ∀ k1 : Nat, k1 < k → ns[k1]? ≠ some q := by
  induction ns generalizing ps with
  | nil => simp [firstPosition]
  | cons n ns ih =>
    cases ps with
    | nil => simp [firstPosition]
    | cons p ps =>
      simp only [firstPosition]
      by_cases h : n = q
      · subst h
        simp only [if_true, Option.some.injEq]
        constructor
        · intro hv
          subst hv
          exact ⟨0, by simp, by simp, by intro k1 hk1; omega⟩
        · rintro ⟨k, h1, h2, h3⟩
          cases k with
          | zero => simpa using h2
          | succ k => exact absurd (List.getElem?_cons_zero) (h3 0 (by omega))
      · simp only [h, if_false]
        rw [ih]
        constructor
        · rintro ⟨k, h1, h2, h3⟩
          refine ⟨k + 1, by simpa using h1, by simpa using h2, ?_⟩
          intro k1 hk1
          cases k1 with
          | zero => simpa using h
          | succ k1 => simpa using h3 k1 (by omega)
        · rintro ⟨k, h1, h2, h3⟩
          cases k with
          | zero => simp at h1; exact absurd h1 h
          | succ k =>
            refine ⟨k, by simpa using h1, by simpa using h2, ?_⟩
            intro k1 hk1
            simpa using h3 (k1 + 1) (by omega)

theorem fillJointPositions_ok (js_msg : JointState R)
    (hlen : js_msg.name.length ≤ js_msg.position.length) :
    ∀ (k i : Nat) (acc : StdMap R), i + k = js_msg.name.length →
      ∃ jp, fillJointPositions (T := T) js_msg k i acc = .ok jp ∧
        ∀ q, StdMap.find jp q =
          match StdMap.find acc q with
          | some x => some x
          | none => firstPosition (js_msg.name.drop i) (js_msg.position.drop i) q := by
  intro k
  induction k with
  | zero =>
    intro i acc hik
    refine ⟨acc, rfl, ?_⟩
    intro q
    have : js_msg.name.drop i = [] := by
      apply List.drop_eq_nil_of_le; omega
    rw [this]
    cases StdMap.find acc q <;> simp [firstPosition]
  | succ k ih =>
    intro i acc hik
    have hn : i < js_msg.name.length := by omega
    have hp : i < js_msg.position.length := by omega
    obtain ⟨jp, h1, h2⟩ := ih (i + 1) (StdMap.insert acc js_msg.name[i] js_msg.position[i])
      (by omega)
    refine ⟨jp, ?_, ?_⟩
    · simp only [fillJointPositions, List.getElem?_eq_getElem hn, List.getElem?_eq_getElem hp]
      exact h1
    · intro q
      rw [h2 q, StdMap.find_insert, List.drop_eq_getElem_cons hn, List.drop_eq_getElem_cons hp]
      cases StdMap.find acc q with
      | some x => rfl
      | none =>
        simp only [firstPosition]
        by_cases h : js_msg.name[i] = q <;> simp [h]

theorem fillJointPositions_error (js_msg : JointState R)
    (hlen : js_msg.position.length < js_msg.name.length) :
    ∀ (k i : Nat) (acc : StdMap R), i + k = js_msg.name.length → i ≤ js_msg.position.length →
      fillJointPositions (T := T) js_msg k i acc = .error .outOfRange := by
  intro k
  induction k with
  | zero => intro i acc hik hi; omega
  | succ k ih =>
    intro i acc hik hi
    have hn : i < js_msg.name.length := by omega
    by_cases hp : i < js_msg.position.length
    · simp only [fillJointPositions, List.getElem?_eq_getElem hn, List.getElem?_eq_getElem hp]
      exact ih _ _ (by omega) (by omega)
    · have : js_msg.position[i]? = none := by
        apply List.getElem?_eq_none; omega
      simp only [fillJointPositions, List.getElem?_eq_getElem hn, this]

theorem fillJointPositions_cast (js_msg : JointState R) (T1 T2 : Type) :
    ∀ (k i : Nat) (acc : StdMap R) (jp : StdMap R),
      fillJointPositions (T := T1) js_msg k i acc = .ok jp →
        fillJointPositions (T := T2) js_msg k i acc = .ok jp := by
  intro k
  induction k with
  | zero => intro i acc jp h; simp only [fillJointPositions, Except.ok.injEq] at h ⊢; exact h
  | succ k ih =>
    intro i acc jp h
    simp only [fillJointPositions] at h ⊢
    cases hn : js_msg.name[i]? with
    | none => rw [hn] at h; cases h
    | some n =>
      cases hp : js_msg.position[i]? with
      | none => rw [hn, hp] at h; cases h
      | some p =>
        rw [hn, hp] at h
        exact ih _ _ _ h

theorem jointPositions_ok (js_msg : JointState R)
    (hlen : js_msg.name.length ≤ js_msg.position.length) :
    jointPositions (T := T) js_msg = .ok (blockMap js_msg) ∧
      ∀ q, StdMap.find (blockMap js_msg) q = firstPosition js_msg.name js_msg.position q := by
  obtain ⟨jp, h1, h2⟩ := fillJointPositions_ok (T := T) js_msg hlen js_msg.name.length 0 []
    (by omega)
  have h3 := fillJointPositions_cast js_msg T Unit _ _ _ _ h1
  have hb : blockMap js_msg = jp := by
    simp only [blockMap, jointPositions, h3]
  rw [hb]
  refine ⟨h1, ?_⟩
  intro q
  rw [h2 q]
  simp [StdMap.find]

/-! ### The dispatcher loop -/

theorem callbackBody_ok (self : MultiPrefixedTFBroadcaster R T) (msg : MultiRobotStateDisplay R)
    (n idx : Nat) (calls : List (Event R)) (hp : PubsSet n self) (hi : idx < n)
    (hb : ¬ BadBlock msg idx) :
    callbackBody self msg idx calls = .ok (calls ++ instanceCalls msg idx) := by
  obtain ⟨p, hp1⟩ := hp idx hi
  have hlt : idx < msg.joint_states.length := by
    by_contra h
    exact hb (Or.inl (by omega))
  have hlen : msg.joint_states[idx].name.length ≤ msg.joint_states[idx].position.length := by
    by_contra h
    exact hb (Or.inr ⟨_, List.getElem?_eq_getElem hlt, by omega⟩)
  have hjp := (jointPositions_ok (T := T) _ hlen).1
  simp only [callbackBody, List.getElem?_eq_getElem hlt, hjp, hp1, instanceCalls, blockMapAt]

theorem callbackBody_bad (self : MultiPrefixedTFBroadcaster R T) (msg : MultiRobotStateDisplay R)
    (idx : Nat) (calls : List (Event R)) (hb : BadBlock msg idx) :
    callbackBody self msg idx calls = .error .outOfRange := by
  rcases hb with h | ⟨js_msg, h1, h2⟩
  · have : msg.joint_states[idx]? = none := List.getElem?_eq_none h
    simp only [callbackBody, this]
  · have hf := fillJointPositions_error (T := T) js_msg h2 js_msg.name.length 0 []
      (by omega) (by omega)
    simp only [callbackBody, h1, jointPositions, hf]

theorem callbackLoop_ok (self : MultiPrefixedTFBroadcaster R T) (msg : MultiRobotStateDisplay R)
    (n : Nat) (hp : PubsSet n self) (hb : ∀ idx, idx < n → ¬ BadBlock msg idx) :
    ∀ (k idx : Nat) (calls : List (Event R)), idx + k ≤ n →
      callbackLoop self msg k idx calls =
        .ok (calls ++ (List.range' idx k).flatMap (instanceCalls msg)) := by
  intro k
  induction k with
  | zero => intro idx calls _; simp [callbackLoop]
  | succ k ih =>
    intro idx calls hik
    simp only [callbackLoop]
    rw [callbackBody_ok self msg n idx calls hp (by omega) (hb idx (by omega))]
    simp only
    rw [ih (idx + 1) _ (by omega)]
    simp [List.range'_succ, List.flatMap_cons]

theorem callbackLoop_bad (self : MultiPrefixedTFBroadcaster R T) (msg : MultiRobotStateDisplay R)
    (n : Nat) (hp : PubsSet n self) :
    ∀ (k idx : Nat) (calls : List (Event R)), idx + k ≤ n →
      (∃ j, idx ≤ j ∧ j < idx + k ∧ BadBlock msg j) →
        callbackLoop self msg k idx calls = .error .outOfRange := by
  intro k
  induction k with
  | zero => rintro idx calls _ ⟨j, h1, h2, _⟩; omega
  | succ k ih =>
    rintro idx calls hik ⟨j, h1, h2, h3⟩
    simp only [callbackLoop]
    by_cases hbad : BadBlock msg idx
    · rw [callbackBody_bad self msg idx calls hbad]
    · rw [callbackBody_ok self msg n idx calls hp (by omega) hbad]
      simp only
      have hne : j ≠ idx := by
        rintro rfl; exact hbad h3
      exact ih (idx + 1) _ (by omega) ⟨j, by omega, by omega, h3⟩

theorem callback_ok (self : MultiPrefixedTFBroadcaster R T) (msg : MultiRobotStateDisplay R)
    (hp : PubsSet self.data_size_ self) (hb : ∀ idx, idx < self.data_size_ → ¬ BadBlock msg idx) :
    self.callback msg = .ok ((List.range self.data_size_).flatMap (instanceCalls msg) ++
      [Event.sendTransform msg.transforms_to_root]) := by
  unfold MultiPrefixedTFBroadcaster.callback
  rw [callbackLoop_ok self msg self.data_size_ hp hb self.data_size_ 0 [] (by omega)]
  simp [List.range_eq_range']

theorem callback_bad (self : MultiPrefixedTFBroadcaster R T) (msg : MultiRobotStateDisplay R)
    (hp : PubsSet self.data_size_ self) (j : Nat) (hj : j < self.data_size_)
    (hb : BadBlock msg j) : self.callback msg = .error .outOfRange := by
  unfold MultiPrefixedTFBroadcaster.callback
  rw [callbackLoop_bad self msg self.data_size_ hp self.data_size_ 0 [] (by omega)
    ⟨j, by omega, by omega, hb⟩]

theorem CtorInv.pubsSet [Inhabited T] {ext : Externals R T} {n : Nat}
    {s : MultiPrefixedTFBroadcaster R T} (h : CtorInv ext n n s) : PubsSet s.data_size_ s := by
  intro idx hidx
  rw [h.1.1] at hidx
  obtain ⟨m, t, _, _, _, _, _, h6⟩ := h.2.1 idx hidx
  exact ⟨_, h6⟩

/-! ### The list of calls of a completed run -/

theorem length_flatMap_instanceCalls (msg : MultiRobotStateDisplay R) (n : Nat) :
    ((List.range n).flatMap (instanceCalls msg)).length = 2 * n := by
  induction n with
  | zero => rfl
  | succ n ih =>
    rw [List.range_succ, List.flatMap_append, List.length_append, ih]
    simp [instanceCalls]
    omega

theorem getElem?_flatMap_instanceCalls (msg : MultiRobotStateDisplay R) (n i : Nat)
    (hi : i < n) :
    ((List.range n).flatMap (instanceCalls msg))[2 * i]? =
        some (Event.publishTransforms i (blockMapAt msg i) msg.stamp (tfPrefixOf i)) ∧
      ((List.range n).flatMap (instanceCalls msg))[2 * i + 1]? =
        some (Event.publishFixedTransforms i (tfPrefixOf i) true) := by
  induction n with
  | zero => omega
  | succ n ih =>
    rw [List.range_succ, List.flatMap_append]
    have hl := length_flatMap_instanceCalls msg n
    by_cases h : i < n
    · obtain ⟨h1, h2⟩ := ih h
      rw [List.getElem?_append_left (by omega), List.getElem?_append_left (by omega)]
      exact ⟨h1, h2⟩
    · have : i = n := by omega
      subst this
      rw [List.getElem?_append_right (by omega), List.getElem?_append_right (by omega), hl]
      simp [instanceCalls]

/-! ### Decimal representations -/

theorem readDigit_digitChar (a k : Nat) (hk : k < 10) :
    readDigit a (Nat.digitChar k) = 10 * a + k := by
  unfold readDigit
  interval_cases k <;> rfl

theorem digitChar_mem (k : Nat) (hk : k < 10) : Nat.digitChar k ∈ "0123456789".data := by
  interval_cases k <;> decide

theorem foldl_toDigitsCore (fuel : Nat) :
    ∀ (n : Nat) (ds : List Char), n < fuel →
      (Nat.toDigitsCore 10 fuel n ds).foldl readDigit 0 = ds.foldl readDigit n := by
  induction fuel with
  | zero => intro n ds h; omega
  | succ fuel ih =>
    intro n ds h
    simp only [Nat.toDigitsCore]
    split_ifs with h0
    · rw [List.foldl_cons, readDigit_digitChar _ _ (Nat.mod_lt _ (by decide))]
      congr 1
      omega
    · rw [ih (n / 10) _ (by omega), List.foldl_cons,
        readDigit_digitChar _ _ (Nat.mod_lt _ (by decide))]
      congr 1
      omega

theorem mem_toDigitsCore (fuel : Nat) :
    ∀ (n : Nat) (ds : List Char) (c : Char), c ∈ Nat.toDigitsCore 10 fuel n ds →
      c ∈ ds ∨ c ∈ "0123456789".data := by
  induction fuel with
  | zero => intro n ds c h; exact Or.inl (by simpa [Nat.toDigitsCore] using h)
  | succ fuel ih =>
    intro n ds c h
    have hd : ∀ x, x ∈ Nat.digitChar (n % 10) :: ds → x ∈ ds ∨ x ∈ "0123456789".data := by
      intro x hx
      rcases List.mem_cons.1 hx with rfl | hx
      · exact Or.inr (digitChar_mem _ (Nat.mod_lt _ (by decide)))
      · exact Or.inl hx
    simp only [Nat.toDigitsCore] at h
    split_ifs at h with h0
    · exact hd c h
    · rcases ih _ _ c h with h1 | h1
      · exact hd c h1
      · exact Or.inr h1

theorem to_string_data (i : Nat) : (to_string i).data = Nat.toDigits 10 i := rfl

theorem to_string_injective (i j : Nat) (h : to_string i = to_string j) : i = j := by
  have hd : Nat.toDigits 10 i = Nat.toDigits 10 j := by
    rw [← to_string_data, ← to_string_data, h]
  have hi := foldl_toDigitsCore (i + 1) i [] (by omega)
  have hj := foldl_toDigitsCore (j + 1) j [] (by omega)
  simp only [List.foldl_nil] at hi hj
  rw [← hi, ← hj]
  exact congrArg (fun l => List.foldl readDigit 0 l) hd

theorem mem_to_string (i : Nat) (c : Char) (h : c ∈ (to_string i).data) :
    c ∈ "0123456789".data := by
  rw [to_string_data] at h
  rcases mem_toDigitsCore _ _ _ c h with h1 | h1
  · cases h1
  · exact h1

theorem to_string_ne_nil (i : Nat) : (to_string i).data ≠ [] := by
  rw [to_string_data]
  unfold Nat.toDigits
  simp only [Nat.toDigitsCore]
  split_ifs with h0
  · simp
  · intro h
    have hl := Nat.toDigitsCore_lens_eq 10 i (i / 10) (Nat.digitChar (i % 10)) []
    rw [h] at hl
    simp at hl

theorem slash_not_mem_to_string (i : Nat) : '/' ∉ (to_string i).data := by
  intro h
  exact absurd (mem_to_string i _ h) (by decide)

theorem tfPrefixOf_injective (i j : Nat) (h : tfPrefixOf i = tfPrefixOf j) : i = j := by
  apply to_string_injective
  have h1 := congrArg String.data h
  simp only [tfPrefixOf, String.data_append] at h1
  exact String.ext (List.append_cancel_left h1)

theorem tfPrefixOf_slash_not_isPrefix (i j : Nat) (hij : i ≠ j) :
    ¬ ((tfPrefixOf i ++ "/").data <+: (tfPrefixOf j ++ "/").data) := by
  intro h
  simp only [tfPrefixOf, String.data_append, List.append_assoc] at h
  rw [List.prefix_append_right_inj] at h
  obtain ⟨t, ht⟩ := h
  have hj := slash_not_mem_to_string j
  rw [List.append_assoc] at ht
  rcases List.append_eq_append_iff.1 ht with ⟨a, ha, hb⟩ | ⟨c, hc, hd⟩
  · cases a with
    | nil =>
      rw [List.append_nil] at ha
      exact hij (to_string_injective i j (String.ext ha.symm))
    | cons x a =>
      have hx : x = '/' := by
        have := congrArg List.head? hb
        simpa using this.symm
      subst hx
      exact hj (by rw [ha]; simp)
  · cases c with
    | nil =>
      rw [List.append_nil] at hc
      exact hij (to_string_injective i j (String.ext hc))
    | cons x c =>
      have hlen := congrArg List.length hd
      simp at hlen

/-! ### From the lemmas to the properties -/

theorem loadedModel_some (ext : Externals R T) (i : Nat) (m : Model R)
    (h : loadedModel ext i = some m) : ∃ key, ext.initParam key = some m := by
  unfold loadedModel at h
  cases h1 : ext.initParam (perInstanceKey i) with
  | some m1 =>
    rw [h1] at h
    exact ⟨_, h1.trans h⟩
  | none =>
    rw [h1] at h
    exact ⟨_, h⟩

theorem WellFormed.not_bad {n : Nat} {msg : MultiRobotStateDisplay R} (h : WellFormed n msg) :
    ∀ idx, idx < n → ¬ BadBlock msg idx := by
  rintro idx hidx (hb | ⟨js_msg, h1, h2⟩)
  · have := h.1
    omega
  · have hmem : js_msg ∈ msg.joint_states := List.mem_iff_getElem?.2 ⟨idx, h1⟩
    have := h.2 js_msg hmem
    omega

theorem callback_of_ctor [Inhabited T] (ext : Externals R T) (data_size : Int)
    (self : MultiPrefixedTFBroadcaster R T) (msg : MultiRobotStateDisplay R)
    (hctor : MultiPrefixedTFBroadcaster.ctor ext data_size = .ok self)
    (hbad : ∀ idx, idx < self.data_size_ → ¬ BadBlock msg idx) :
    self.callback msg = .ok ((List.range self.data_size_).flatMap (instanceCalls msg) ++
      [Event.sendTransform msg.transforms_to_root]) :=
  callback_ok self msg ((ctor_spec ext data_size).1 self hctor).pubsSet hbad

theorem namesIndex_warnText (k : Nat) : namesIndex (warnText k) k := by
  refine ⟨"Could not load [".data,
    "/robot_description".data ++ "], then use parameter [robot_descrition]".data, ?_⟩
  simp [warnText, String.data_append]

theorem not_namesIndex_of_no_digit (text : String)
    (h : ∀ c, c ∈ text.data → c ∉ "0123456789".data) (k : Nat) : ¬ namesIndex text k := by
  rintro ⟨s, t, hst⟩
  cases hd : (to_string k).data with
  | nil => exact to_string_ne_nil k hd
  | cons c cs =>
    have h1 : c ∈ text.data := by
      rw [← hst, hd]; simp
    have h2 : c ∈ "0123456789".data := mem_to_string k c (by rw [hd]; simp)
    exact h c h1 h2

theorem firstPosition_isSome (ns : List String) (ps : List R) (q : String)
    (hlen : ns.length ≤ ps.length) :
    (∃ v, firstPosition ns ps q = some v) ↔ q ∈ ns := by
  induction ns generalizing ps with
  | nil => simp [firstPosition]
  | cons n ns ih =>
    cases ps with
    | nil => simp at hlen
    | cons p ps =>
      simp only [firstPosition, List.mem_cons]
      by_cases h : n = q
      · subst h; simp
      · simp only [h, if_false]
        rw [ih ps (by simpa using hlen)]
        constructor
        · exact Or.inr
        · rintro (h1 | h1)
          · exact absurd h1.symm h
          · exact h1

/-! ## The properties -/

/-- C1, the code evaluated at the scenario of the claim (two instances, instance 0 with
`follower = mimic(hinge, 2.0, 0.1)`, `block0 = {hinge: 0.5}`): the constructor stores the rule
of `follower` in `mimicmaps_[0]`, and the dispatcher hands `{hinge: 0.5}` to the publisher of
instance 0, a mapping in which `follower` has no position. -/
theorem callback_leaves_mimic_unresolved :
    MultiPrefixedTFBroadcaster.ctor mimicExt defaultDataSize = .ok mimicSelf ∧
    mimicSelf.mimicmaps_[0]? =
      some [("follower", { offset := 0.1, multiplier := 2.0, joint_name := "hinge" })] ∧
    mimicSelf.callback mimicMsg = .ok
      [Event.publishTransforms 0 [("hinge", 0.5)] { sec := 1, nsec := 2 } "mptb_0",
        Event.publishFixedTransforms 0 "mptb_0" true,
        Event.publishTransforms 1 [] { sec := 1, nsec := 2 } "mptb_1",
        Event.publishFixedTransforms 1 "mptb_1" true,
        Event.sendTransform [rootAnchor]] ∧
    StdMap.find [("hinge", (0.5 : Rat))] "follower" = none :=
  ⟨rfl, rfl, rfl, rfl⟩

/-- C2: after the constructor returns, for every instance index `i` below the instance count,
a joint name `j` is a key of `mimicmaps_[i]` with value `r` exactly when `j` is a joint of
`models_[i]` whose mimic rule is present and is `r` itself (source joint name, multiplier and
offset as declared, nothing resolved). The keys of a `std::map` are distinct, which is the
hypothesis on the loaded models. -/
theorem ctor_mimicmaps [Inhabited T] (ext : Externals R T) (data_size : Int)
    (self : MultiPrefixedTFBroadcaster R T)
    (hmap : ∀ key m, ext.initParam key = some m → (m.joints_.map Prod.fst).Nodup)
    (hctor : MultiPrefixedTFBroadcaster.ctor ext data_size = .ok self) :
    ∀ i, i < self.data_size_ →
      ∃ m mm, self.models_[i]? = some m ∧ self.mimicmaps_[i]? = some mm ∧
        ∀ j r, StdMap.find mm j = some r ↔
          ∃ joint, StdMap.find m.joints_ j = some joint ∧ joint.mimic = some r := by
  intro i hi
  have hinv := (ctor_spec ext data_size).1 self hctor
  have hn : self.data_size_ = (ctorInit ext data_size).data_size_ := hinv.1.1
  obtain ⟨m, t, hm, _, hmod, _, hmm, _⟩ := hinv.2.1 i (by omega)
  refine ⟨m, _, hmod, hmm, ?_⟩
  obtain ⟨key, hkey⟩ := loadedModel_some ext i m hm
  intro j r
  rw [find_collectMimic m.joints_ (hmap key m hkey) [] j]
  simp only [StdMap.find, declaredMimic]
  cases StdMap.find m.joints_ j <;> simp

/-- The property of C2 on the two-instance scenario. -/
theorem ctor_mimicmaps_witness :
    MultiPrefixedTFBroadcaster.ctor mimicExt defaultDataSize = .ok mimicSelf ∧
    ∀ i, i < mimicSelf.data_size_ →
      ∃ m mm, mimicSelf.models_[i]? = some m ∧ mimicSelf.mimicmaps_[i]? = some mm ∧
        ∀ j r, StdMap.find mm j = some r ↔
          ∃ joint, StdMap.find m.joints_ j = some joint ∧ joint.mimic = some r :=
  ⟨rfl, ctor_mimicmaps mimicExt defaultDataSize mimicSelf
    (by
      intro key m h
      simp only [mimicExt] at h
      split_ifs at h <;> cases h <;> decide)
    rfl⟩

/-- C3: for a well-formed batch with as many blocks as there are instances, one run of the
dispatcher returns, and the calls it makes are, in order, for each instance index `0..N-1` one
`publishTransforms` on that instance's publisher immediately followed by one
`publishFixedTransforms` on the same publisher, and then the send on the static broadcaster;
no publisher is called otherwise, and the sequence is the same whatever the positions are. -/
theorem callback_call_sequence [Inhabited T] (ext : Externals R T) (data_size : Int)
    (self : MultiPrefixedTFBroadcaster R T) (msg : MultiRobotStateDisplay R)
    (hctor : MultiPrefixedTFBroadcaster.ctor ext data_size = .ok self)
    (hmsg : WellFormed self.data_size_ msg) :
    ∃ calls, self.callback msg = .ok calls ∧
      calls.map Event.callee =
        (List.range self.data_size_).flatMap (fun i => [Callee.dynamic i, Callee.fixed i]) ++
          [Callee.staticBroadcaster] := by
  refine ⟨_, callback_of_ctor ext data_size self msg hctor hmsg.not_bad, ?_⟩
  rw [List.map_append, List.map_flatMap]
  rfl

/-- The property of C3 on the two-instance scenario. -/
theorem callback_call_sequence_witness :
    MultiPrefixedTFBroadcaster.ctor mimicExt defaultDataSize = .ok mimicSelf ∧
    WellFormed mimicSelf.data_size_ mimicMsg ∧
    ∃ calls, mimicSelf.callback mimicMsg = .ok calls ∧
      calls.map Event.callee =
        (List.range mimicSelf.data_size_).flatMap
          (fun i => [Callee.dynamic i, Callee.fixed i]) ++ [Callee.staticBroadcaster] :=
  ⟨rfl, ⟨rfl, by decide⟩,
    callback_call_sequence mimicExt defaultDataSize mimicSelf mimicMsg rfl ⟨rfl, by decide⟩⟩

/-- C4: in a run of the dispatcher on a well-formed batch, the two calls on the publisher of
instance `i` both receive the string `"mptb_"` followed by the decimal representation of `i`;
and for indices `i ≠ j` these strings differ, and `"mptb_<i>/"` is not a prefix of
`"mptb_<j>/"`. -/
theorem callback_tf_prefixes [Inhabited T] (ext : Externals R T) (data_size : Int)
    (self : MultiPrefixedTFBroadcaster R T) (msg : MultiRobotStateDisplay R)
    (hctor : MultiPrefixedTFBroadcaster.ctor ext data_size = .ok self)
    (hmsg : WellFormed self.data_size_ msg) :
    (∃ calls, self.callback msg = .ok calls ∧
      ∀ i, i < self.data_size_ →
        ∃ joint_positions,
          calls[2 * i]? = some (Event.publishTransforms i joint_positions msg.stamp
            ("mptb_" ++ to_string i)) ∧
          calls[2 * i + 1]? = some (Event.publishFixedTransforms i
            ("mptb_" ++ to_string i) true)) ∧
    ∀ i j : Nat, i ≠ j →
      "mptb_" ++ to_string i ≠ "mptb_" ++ to_string j ∧
      ¬ (("mptb_" ++ to_string i ++ "/").data <+: ("mptb_" ++ to_string j ++ "/").data) := by
  refine ⟨⟨_, callback_of_ctor ext data_size self msg hctor hmsg.not_bad, ?_⟩, ?_⟩
  · intro i hi
    obtain ⟨h1, h2⟩ := getElem?_flatMap_instanceCalls msg self.data_size_ i hi
    have hl := length_flatMap_instanceCalls msg self.data_size_
    refine ⟨blockMapAt msg i, ?_, ?_⟩
    · rw [List.getElem?_append_left (by omega)]
      exact h1
    · rw [List.getElem?_append_left (by omega)]
      exact h2
  · intro i j hij
    exact ⟨fun h => hij (tfPrefixOf_injective i j h), tfPrefixOf_slash_not_isPrefix i j hij⟩

/-- The property of C4 on the two-instance scenario. -/
theorem callback_tf_prefixes_witness :
    MultiPrefixedTFBroadcaster.ctor mimicExt defaultDataSize = .ok mimicSelf ∧
    WellFormed mimicSelf.data_size_ mimicMsg ∧
    (∃ calls, mimicSelf.callback mimicMsg = .ok calls ∧
      ∀ i, i < mimicSelf.data_size_ →
        ∃ joint_positions,
          calls[2 * i]? = some (Event.publishTransforms i joint_positions mimicMsg.stamp
            ("mptb_" ++ to_string i)) ∧
          calls[2 * i + 1]? = some (Event.publishFixedTransforms i
            ("mptb_" ++ to_string i) true)) ∧
    ∀ i j : Nat, i ≠ j →
      "mptb_" ++ to_string i ≠ "mptb_" ++ to_string j ∧
      ¬ (("mptb_" ++ to_string i ++ "/").data <+: ("mptb_" ++ to_string j ++ "/").data) :=
  ⟨rfl, ⟨rfl, by decide⟩,
    callback_tf_prefixes mimicExt defaultDataSize mimicSelf mimicMsg rfl ⟨rfl, by decide⟩⟩

/-- C5: in a run of the dispatcher on a well-formed batch, the last call is the one send on
the static broadcaster, its payload is the list `transforms_to_root` of the batch itself, and
the `2 * N` calls before it are all publisher calls. -/
theorem callback_static_send [Inhabited T] (ext : Externals R T) (data_size : Int)
    (self : MultiPrefixedTFBroadcaster R T) (msg : MultiRobotStateDisplay R)
    (hctor : MultiPrefixedTFBroadcaster.ctor ext data_size = .ok self)
    (hmsg : WellFormed self.data_size_ msg) :
    ∃ calls, self.callback msg = .ok (calls ++ [Event.sendTransform msg.transforms_to_root]) ∧
      calls.length = 2 * self.data_size_ ∧
      ∀ ev, ev ∈ calls → ∀ transforms, ev ≠ Event.sendTransform transforms := by
  refine ⟨_, callback_of_ctor ext data_size self msg hctor hmsg.not_bad,
    length_flatMap_instanceCalls msg self.data_size_, ?_⟩
  intro ev hev transforms
  obtain ⟨i, _, hi⟩ := List.mem_flatMap.1 hev
  simp only [instanceCalls, List.mem_cons, List.mem_singleton, List.not_mem_nil, or_false] at hi
  rcases hi with rfl | rfl <;> simp

/-- The property of C5 on the two-instance scenario. -/
theorem callback_static_send_witness :
    MultiPrefixedTFBroadcaster.ctor mimicExt defaultDataSize = .ok mimicSelf ∧
    WellFormed mimicSelf.data_size_ mimicMsg ∧
    ∃ calls,
      mimicSelf.callback mimicMsg =
        .ok (calls ++ [Event.sendTransform mimicMsg.transforms_to_root]) ∧
      calls.length = 2 * mimicSelf.data_size_ ∧
      ∀ ev, ev ∈ calls → ∀ transforms, ev ≠ Event.sendTransform transforms :=
  ⟨rfl, ⟨rfl, by decide⟩,
    callback_static_send mimicExt defaultDataSize mimicSelf mimicMsg rfl ⟨rfl, by decide⟩⟩

/-- C6: when the constructor, called with its default argument, returns, each of `models_`,
`trees_`, `mimicmaps_` and `pub_ptrs_` has exactly `N` elements and every publisher handle of
index `0..N-1` is set, where `N` is the value of the instance-count parameter when it is set
(to a non-negative `int`) and 7 when it is not set. -/
theorem ctor_registry_size [Inhabited T] (ext : Externals R T)
    (self : MultiPrefixedTFBroadcaster R T)
    (hsize : ∀ size, ext.getParam "mptb_datasize" = some size → 0 ≤ size ∧ size < 2 ^ 31)
    (hctor : MultiPrefixedTFBroadcaster.ctor ext defaultDataSize = .ok self) :
    self.data_size_ = configuredCount ext ∧
    self.models_.length = configuredCount ext ∧
    self.trees_.length = configuredCount ext ∧
    self.mimicmaps_.length = configuredCount ext ∧
    self.pub_ptrs_.length = configuredCount ext ∧
    ∀ i, i < configuredCount ext → ∃ p, self.pub_ptrs_[i]? = some (some p) := by
  have hinv := (ctor_spec ext defaultDataSize).1 self hctor
  have hn : (ctorInit ext defaultDataSize).data_size_ = configuredCount ext := by
    simp only [ctorInit, configuredCount]
    cases hg : ext.getParam "mptb_datasize" with
    | none => rfl
    | some size =>
      obtain ⟨h0, h1⟩ := hsize size hg
      simp only [toUnsigned]
      rw [Int.emod_eq_of_lt h0 (by omega)]
  rw [hn] at hinv
  obtain ⟨⟨h0, h1, h2, h3, h4⟩, hdone, _⟩ := hinv
  refine ⟨h0, h1, h2, h3, h4, ?_⟩
  intro i hi
  obtain ⟨m, t, _, _, _, _, _, h6⟩ := hdone i hi
  exact ⟨_, h6⟩

/-- The property of C6 on the scenario with the instance count configured as 2. -/
theorem ctor_registry_size_witness :
    MultiPrefixedTFBroadcaster.ctor mimicExt defaultDataSize = .ok mimicSelf ∧
    mimicSelf.data_size_ = configuredCount mimicExt ∧
    mimicSelf.models_.length = configuredCount mimicExt ∧
    mimicSelf.trees_.length = configuredCount mimicExt ∧
    mimicSelf.mimicmaps_.length = configuredCount mimicExt ∧
    mimicSelf.pub_ptrs_.length = configuredCount mimicExt ∧
    ∀ i, i < configuredCount mimicExt → ∃ p, mimicSelf.pub_ptrs_[i]? = some (some p) :=
  ⟨rfl, ctor_registry_size mimicExt mimicSelf
    (by
      intro size h
      simp only [mimicExt, if_true, Option.some.injEq] at h
      subst h
      decide)
    rfl⟩

/-- C7: for an instance count below `2 ^ 31` (the parameter value, or the default argument, is
a non-negative `int`), the constructor stops by `abort()` exactly when some index below the
instance count cannot be set up (neither key loads, or no tree can be built from the loaded
model), and it never stops in another way; when it returns, every instance has the model of
its own key when that key loads and the model of the shared key otherwise, and its publisher
handle is set; an abort happens at the smallest index that cannot be set up, and at that moment
no instance from that index on is initialised: its mimic map is empty and its publisher handle
null, and every later instance still has the default-constructed model and tree. -/
theorem ctor_abort_iff [Inhabited T] (ext : Externals R T) (data_size : Int)
    (hcount : (ctorInit ext data_size).data_size_ < 2 ^ 31) :
    ((∃ k h, MultiPrefixedTFBroadcaster.ctor ext data_size = .error (.abort k h)) ↔
      ∃ i, i < (ctorInit ext data_size).data_size_ ∧ instanceFails ext i) ∧
    (∀ e, MultiPrefixedTFBroadcaster.ctor ext data_size = .error e → ∃ k h, e = .abort k h) ∧
    (∀ self, MultiPrefixedTFBroadcaster.ctor ext data_size = .ok self →
      ∀ i, i < (ctorInit ext data_size).data_size_ →
        (∀ m, ext.initParam (perInstanceKey i) = some m → self.models_[i]? = some m) ∧
        (ext.initParam (perInstanceKey i) = none →
          ∃ m, ext.initParam "robot_description" = some m ∧ self.models_[i]? = some m) ∧
        ∃ p, self.pub_ptrs_[i]? = some (some p)) ∧
    (∀ k h, MultiPrefixedTFBroadcaster.ctor ext data_size = .error (.abort k h) →
      k < (ctorInit ext data_size).data_size_ ∧ instanceFails ext k ∧
      (∀ j, j < k → ¬ instanceFails ext j) ∧
      (∀ j, k ≤ j → j < (ctorInit ext data_size).data_size_ →
        h.mimicmaps_[j]? = some [] ∧ h.pub_ptrs_[j]? = some none) ∧
      ∀ j, k < j → j < (ctorInit ext data_size).data_size_ →
        h.models_[j]? = some { joints_ := [] } ∧ h.trees_[j]? = some default) := by
  have hspec := ctor_spec ext data_size
  have herr : ∀ e, MultiPrefixedTFBroadcaster.ctor ext data_size = .error e →
      ∃ k h, e = .abort k h ∧ k < (ctorInit ext data_size).data_size_ ∧ instanceFails ext k ∧
        (∀ j, j < k → ¬ instanceFails ext j) ∧
        (∀ j, k ≤ j → j < (ctorInit ext data_size).data_size_ →
          h.mimicmaps_[j]? = some [] ∧ h.pub_ptrs_[j]? = some none) ∧
        ∀ j, k < j → j < (ctorInit ext data_size).data_size_ →
          h.models_[j]? = some { joints_ := [] } ∧ h.trees_[j]? = some default := by
    intro e he
    obtain ⟨j, sj, hj, hinv, hbody⟩ := hspec.2 e he
    obtain ⟨hf, s1, rfl, hp, hmm, htr, _⟩ := ctorBody_error ext _ j sj hinv.1 hj e hbody
    have hmod := ctorBody_error_models ext _ j sj s1 hinv.1 hj hbody
    refine ⟨j, s1, rfl, hj, hf, fun j1 hj1 => (hinv.2.1 j1 hj1).not_fails, ?_, ?_⟩
    · intro j1 h1 h2
      rw [hp, hmm]
      exact ⟨(hinv.2.2 j1 h1 h2).1, (hinv.2.2 j1 h1 h2).2.1⟩
    · intro j1 h1 h2
      rw [hmod j1 (by omega), htr]
      exact (hinv.2.2 j1 (by omega) h2).2.2
  have _ := hcount
  refine ⟨⟨?_, ?_⟩, ?_, ?_, ?_⟩
  · rintro ⟨k, h, hk⟩
    obtain ⟨k1, h1, he, hlt, hf, _⟩ := herr _ hk
    cases he
    exact ⟨k, hlt, hf⟩
  · rintro ⟨i, hi, hf⟩
    cases hres : MultiPrefixedTFBroadcaster.ctor ext data_size with
    | ok s1 => exact absurd hf ((hspec.1 s1 hres).2.1 i hi).not_fails
    | error e =>
      obtain ⟨k, h, he, _⟩ := herr e hres
      exact ⟨k, h, by rw [he]⟩
  · intro e he
    obtain ⟨k, h, hk, _⟩ := herr e he
    exact ⟨k, h, hk⟩
  · intro self hok i hi
    obtain ⟨m, t, hm, _, hmod, _, _, hpub⟩ := (hspec.1 self hok).2.1 i hi
    refine ⟨?_, ?_, _, hpub⟩
    · intro m1 h1
      simp only [loadedModel, h1, Option.some.injEq] at hm
      rw [hm]; exact hmod
    · intro h1
      simp only [loadedModel, h1] at hm
      exact ⟨m, hm, hmod⟩
  · intro k h hk
    obtain ⟨k1, h1, he, hlt, hf, hmin, hnull, hlater⟩ := herr _ hk
    cases he
    exact ⟨hlt, hf, hmin, hnull, hlater⟩

/-- The property of C7 on the seven-instance scenario, where nothing loads for index 3: the
count is within range, index 3 cannot be set up, and so the constructor aborts. -/
theorem ctor_abort_iff_witness :
    (ctorInit failExt defaultDataSize).data_size_ < 2 ^ 31 ∧
    (∃ i, i < (ctorInit failExt defaultDataSize).data_size_ ∧ instanceFails failExt i) ∧
    ∃ k h, MultiPrefixedTFBroadcaster.ctor failExt defaultDataSize = .error (.abort k h) :=
  ⟨by decide, ⟨3, by decide, Or.inl ⟨rfl, rfl⟩⟩,
    (ctor_abort_iff failExt defaultDataSize (by decide)).1.2
      ⟨3, by decide, Or.inl ⟨rfl, rfl⟩⟩⟩

/-- C8, the claim as stated fails: with seven instances and nothing loading for index 3, the
constructor aborts at index 3 and the last line logged before the abort is the error
`Failed to read parameter`, in which `3` does not occur. -/
theorem abort_error_omits_index :
    MultiPrefixedTFBroadcaster.ctor failExt defaultDataSize = .error (.abort 3 failSelf) ∧
    failSelf.log.getLast? = some (LogMsg.error "Failed to read parameter") ∧
    ¬ namesIndex "Failed to read parameter" 3 :=
  ⟨rfl, rfl, by unfold namesIndex; decide⟩

/-- C8 as amended: whenever the constructor aborts at index `k`, either the description of
instance `k` could not be loaded and the log ends with the warning of line 67, which names
`k`, followed by the error `Failed to read parameter`, or no tree could be built from the
loaded model and the log ends with the error
`Failed to extract kdl tree from xml robot description`; neither error text names `k`. -/
theorem abort_log [Inhabited T] (ext : Externals R T) (data_size : Int) (k : Nat)
    (h : MultiPrefixedTFBroadcaster R T)
    (habort : MultiPrefixedTFBroadcaster.ctor ext data_size = .error (.abort k h)) :
    (loadedModel ext k = none ∧
      (∃ before, h.log = before ++
        [LogMsg.warn (warnText k), LogMsg.error "Failed to read parameter"]) ∧
      namesIndex (warnText k) k ∧ ¬ namesIndex "Failed to read parameter" k) ∨
    ((∃ m, loadedModel ext k = some m ∧ ext.treeFromUrdfModel m = none) ∧
      (∃ before, h.log = before ++
        [LogMsg.error "Failed to extract kdl tree from xml robot description"]) ∧
      ¬ namesIndex "Failed to extract kdl tree from xml robot description" k) := by
  obtain ⟨j, sj, hj, hinv, hbody⟩ := (ctor_spec ext data_size).2 _ habort
  obtain ⟨_, s1, he, _, _, _, hlog⟩ := ctorBody_error ext _ j sj hinv.1 hj _ hbody
  cases he
  rcases hlog with ⟨h1, h2⟩ | ⟨m, h1, h2, h3⟩
  · exact Or.inl ⟨h1, ⟨_, h2⟩, namesIndex_warnText k,
      not_namesIndex_of_no_digit _ (by decide) k⟩
  · exact Or.inr ⟨⟨m, h1, h2⟩, ⟨_, h3⟩, not_namesIndex_of_no_digit _ (by decide) k⟩

/-- The property of C8 as amended, on the seven-instance scenario. -/
theorem abort_log_witness :
    MultiPrefixedTFBroadcaster.ctor failExt defaultDataSize = .error (.abort 3 failSelf) ∧
    ((loadedModel failExt 3 = none ∧
      (∃ before, failSelf.log = before ++
        [LogMsg.warn (warnText 3), LogMsg.error "Failed to read parameter"]) ∧
      namesIndex (warnText 3) 3 ∧ ¬ namesIndex "Failed to read parameter" 3) ∨
    ((∃ m, loadedModel failExt 3 = some m ∧ failExt.treeFromUrdfModel m = none) ∧
      (∃ before, failSelf.log = before ++
        [LogMsg.error "Failed to extract kdl tree from xml robot description"]) ∧
      ¬ namesIndex "Failed to extract kdl tree from xml robot description" 3)) :=
  ⟨rfl, abort_log failExt defaultDataSize 3 failSelf rfl⟩

/-- C9: for a block with at least as many positions as names, the dispatcher builds a mapping
whose keys are exactly the names occurring in the block and in which each key has the position
at the first index where that name occurs; so with pairwise distinct names `name[k]` has
`position[k]` for every `k`, and a block without names gives the empty mapping. -/
theorem jointPositions_first_occurrence (js_msg : JointState R)
    (hlen : js_msg.name.length ≤ js_msg.position.length) :
    ∃ joint_positions, jointPositions (T := T) js_msg = .ok joint_positions ∧
      (∀ q, (∃ v, StdMap.find joint_positions q = some v) ↔ q ∈ js_msg.name) ∧
      (∀ q v, StdMap.find joint_positions q = some v ↔
        ∃ k : Nat, js_msg.name[k]? = some q ∧ js_msg.position[k]? = some v ∧
          ∀ k1 : Nat, k1 < k → js_msg.name[k1]? ≠ some q) ∧
      (js_msg.name.Nodup → ∀ (k : Nat) (n : String) (p : R), js_msg.name[k]? = some n →
        js_msg.position[k]? = some p → StdMap.find joint_positions n = some p) ∧
      (js_msg.name = [] → joint_positions = []) := by
  obtain ⟨hok, hfind⟩ := jointPositions_ok (T := T) js_msg hlen
  refine ⟨blockMap js_msg, hok, ?_, ?_, ?_, ?_⟩
  · intro q
    rw [hfind q]
    exact firstPosition_isSome _ _ q hlen
  · intro q v
    rw [hfind q]
    exact firstPosition_eq_some _ _ q v
  · intro hnd k n p hn hp
    rw [hfind n, firstPosition_eq_some]
    refine ⟨k, hn, hp, ?_⟩
    intro k1 hk1 hk1n
    obtain ⟨hk, hkn⟩ := List.getElem?_eq_some_iff.1 hn
    obtain ⟨hk1lt, hk1eq⟩ := List.getElem?_eq_some_iff.1 hk1n
    have := (List.Nodup.getElem_inj_iff hnd).1 (hk1eq.trans hkn.symm)
    omega
  · intro hnil
    have h0 : jointPositions (T := T) js_msg = .ok [] := by
      simp [jointPositions, hnil, fillJointPositions]
    rw [h0] at hok
    exact (Except.ok.inj hok).symm

/-- The property of C9 on a block in which a name is repeated. -/
theorem jointPositions_first_occurrence_witness :
    repeatedBlock.name.length ≤ repeatedBlock.position.length ∧
    ∃ joint_positions, jointPositions (T := Unit) repeatedBlock = .ok joint_positions ∧
      (∀ q, (∃ v, StdMap.find joint_positions q = some v) ↔ q ∈ repeatedBlock.name) ∧
      (∀ q v, StdMap.find joint_positions q = some v ↔
        ∃ k : Nat, repeatedBlock.name[k]? = some q ∧ repeatedBlock.position[k]? = some v ∧
          ∀ k1 : Nat, k1 < k → repeatedBlock.name[k1]? ≠ some q) ∧
      (repeatedBlock.name.Nodup → ∀ (k : Nat) (n : String) (p : Rat),
        repeatedBlock.name[k]? = some n →
          repeatedBlock.position[k]? = some p → StdMap.find joint_positions n = some p) ∧
      (repeatedBlock.name = [] → joint_positions = []) :=
  ⟨by decide, jointPositions_first_occurrence repeatedBlock (by decide)⟩

/-- C10: for an object the constructor returned, with instance count `N`: on a batch with at
least `N` blocks whose first `N` blocks each have at least as many positions as names, the
dispatcher returns, so every index it uses is in range; on a batch with fewer than `N` blocks,
or with a block among the first `N` that has fewer positions than names, it reaches an index
out of range. -/
theorem callback_in_range [Inhabited T] (ext : Externals R T) (data_size : Int)
    (self : MultiPrefixedTFBroadcaster R T) (msg : MultiRobotStateDisplay R)
    (hctor : MultiPrefixedTFBroadcaster.ctor ext data_size = .ok self) :
    ((self.data_size_ ≤ msg.joint_states.length ∧
        ∀ (idx : Nat) (js_msg : JointState R), idx < self.data_size_ →
          msg.joint_states[idx]? = some js_msg →
            js_msg.name.length ≤ js_msg.position.length) →
      ∃ calls, self.callback msg = .ok calls) ∧
    ((msg.joint_states.length < self.data_size_ ∨
        ∃ (idx : Nat) (js_msg : JointState R), idx < self.data_size_ ∧
          msg.joint_states[idx]? = some js_msg ∧
            js_msg.position.length < js_msg.name.length) →
      self.callback msg = .error .outOfRange) := by
  have hpubs := ((ctor_spec ext data_size).1 self hctor).pubsSet
  constructor
  · rintro ⟨h1, h2⟩
    refine ⟨_, callback_ok self msg hpubs ?_⟩
    rintro idx hidx (hb | ⟨js_msg, hb1, hb2⟩)
    · omega
    · have := h2 idx js_msg hidx hb1
      omega
  · rintro (h | ⟨idx, js_msg, h1, h2, h3⟩)
    · exact callback_bad self msg hpubs msg.joint_states.length h (Or.inl (le_refl _))
    · exact callback_bad self msg hpubs idx h1 (Or.inr ⟨js_msg, h2, h3⟩)

/-- The property of C10 on the two-instance scenario: the batch with two blocks is dispatched,
the batch with one block runs out of range. -/
theorem callback_in_range_witness :
    MultiPrefixedTFBroadcaster.ctor mimicExt defaultDataSize = .ok mimicSelf ∧
    (∃ calls, mimicSelf.callback mimicMsg = .ok calls) ∧
    mimicSelf.callback shortMsg = .error .outOfRange :=
  ⟨rfl,
    (callback_in_range mimicExt defaultDataSize mimicSelf mimicMsg rfl).1
      ⟨by decide, fun idx js_msg _ h =>
        (by decide : ∀ b, b ∈ mimicMsg.joint_states → b.name.length ≤ b.position.length)
          js_msg (List.mem_iff_getElem?.2 ⟨idx, h⟩)⟩,
    (callback_in_range mimicExt defaultDataSize mimicSelf shortMsg rfl).2
      (Or.inl (by decide))⟩

end Proofs

end TinyRvizPlugins
